import Mathlib

/-!
Shallow embedding of the packing-list inventory model
(`Container` / `Item` / `Box` classes and the `utils.js` validators).

Modelling conventions
* JavaScript values that flow into the validators are modelled by `JSVal`
  (integers, strings, arrays, `undefined`).  JS numbers that are not
  integers never pass `isPositiveInt`, so integer-valued numbers suffice
  for every reachable code path the claims mention.
* Object identity: every `new Box(...)` / `new Item(...)` creates a fresh
  object, so a JS `Set` of such objects behaves like an append-only list.
  We give each `Box` an `id` (per owning item) and a `parent` field (the
  owning item's `oid`), and each `Item` an `oid`, so that structural
  equality of the Lean values coincides with reference equality of the JS
  objects for all reachably constructed values.
* A JS method that can `throw` is modelled as returning
  `State × Option String` (the state after the call together with the
  thrown message, `none` when no exception) when the receiver is mutated
  in place, and as `Except String α` for constructors, which either return
  a fully built value or throw.
-/

namespace PackingList

/-- JS `String.prototype.trim()`: drops whitespace from both ends.
Defined structurally on the character list so that it evaluates inside
the kernel (the core library's `String.trim` is well-founded-recursive
and does not). -/
def jsTrim (s : String) : String :=
  String.mk (((s.data.dropWhile Char.isWhitespace).reverse.dropWhile Char.isWhitespace).reverse)

/-- JS `String.prototype.toLowerCase()`, on the ASCII range the model
uses; structural for the same reason as `jsTrim`. -/
def jsToLower (s : String) : String :=
  String.mk (s.data.map Char.toLower)

/-- A JavaScript value, as far as the inventory model inspects one. -/
inductive JSVal where
  | vint (n : Int)
  | vstr (s : String)
  | varr (l : List JSVal)
  | vundef

namespace JSVal

/-- JS property access `v[i]`: arrays index into their elements, strings
yield one-character strings, everything else gives `undefined` (as does an
out-of-range index). -/
def index : JSVal → Nat → JSVal
  | varr l, i => l.getD i vundef
  | vstr s, i => if i < s.length then vstr (String.singleton (s.toList.getD i ' ')) else vundef
  | _, _ => vundef

mutual

/-- JS string coercion, as used by the template literals in the error
messages: numbers print themselves, arrays join their elements with
commas, `undefined` prints as the word undefined. -/
def display : JSVal → String
  | vint n => toString n
  | vstr s => s
  | varr l => String.intercalate "," (displayList l)
  | vundef => "undefined"

/-- JS string coercion of each element of an array, for `display`. -/
def displayList : List JSVal → List String
  | [] => []
  | v :: vs => display v :: displayList vs

end

/-- The string content of a value known to be a string (every use site is
guarded by `isNonEmptyString`, so the default is never reached on the
modelled paths). -/
def asString : JSVal → String
  | vstr s => s
  | _ => ""

/-- The integer content of a value known to be an integer (every use site
is guarded by `isPositiveInt`). -/
def asInt : JSVal → Int
  | vint n => n
  | _ => 0

/-- JS `e.toLowerCase()`; only ever called after `isNonEmptyString e`, so
`e` is a string on the modelled paths. -/
def toLowerCase : JSVal → String
  | vstr s => jsToLower s
  | _ => ""

end JSVal

/-- utils.js `isNonEmptyString`: truthy, of type string, and with a
positive length after trimming.  (A whitespace-only string therefore
fails the check, because the length is taken of the trimmed string.) -/
def isNonEmptyString : JSVal → Bool
  | JSVal.vstr s => decide (0 < (jsTrim s).length)
  | _ => false

/-- utils.js `isPositiveInt`: truthy, an integer, and greater than zero.
(Zero is falsy, so folding truthiness into the comparison is exact.) -/
def isPositiveInt : JSVal → Bool
  | JSVal.vint n => decide (0 < n)
  | _ => false

/-- JS string coercion of a plain object (`Box`/`Item` instances) inside a
template literal. -/
def objectDisplay : String := "[object Object]"

/-- A Box instance: the two validated data fields plus the identity
bookkeeping (`id` fresh within the owning item, `parent` the owning
item's `oid`, standing for the back-reference `#parentItem`). -/
structure Box where
  id : Nat
  qty : Int
  description : String
  parent : Nat
deriving DecidableEq

/-- Box's `set qty`: validates with `isPositiveInt`, stores the integer,
throws otherwise leaving the box unchanged. -/
def Box.setQty (b : Box) (e : JSVal) : Box × Option String :=
  if isPositiveInt e then
    ({ b with qty := e.asInt }, none)
  else
    (b, some ("invalid argument for box.qty \x27" ++ e.display ++ "\x27"))

/-- Box's `set description`: validates with `isNonEmptyString`, stores the
string as given (NOT trimmed), throws otherwise leaving the box
unchanged. -/
def Box.setDescription (b : Box) (e : JSVal) : Box × Option String :=
  if isNonEmptyString e then
    ({ b with description := e.asString }, none)
  else
    (b, some ("invalid argument for box.description \x27" ++ e.display ++ "\x27"))

/-- Box's constructor `new Box(qty, description, parentItem)`: runs the
qty setter, then the description setter, then binds the parent
back-reference; the first failing setter throws.  `parent`/`id` carry the
identity bookkeeping described at the top of the file; the
`#setParentItem` check always passes on the modelled paths because the
constructor is only reached from `Item.addBoxes`, which passes `this`. -/
def Box.make (qty description : JSVal) (parent id : Nat) : Except String Box :=
  if isPositiveInt qty then
    if isNonEmptyString description then
      Except.ok { id := id, qty := qty.asInt, description := description.asString, parent := parent }
    else
      Except.error ("invalid argument for box.description \x27" ++ description.display ++ "\x27")
  else
    Except.error ("invalid argument for box.qty \x27" ++ qty.display ++ "\x27")

/-- An Item instance: the three validated scalar fields, the box set
(`#boxes`, a JS `Set` holding only fresh objects, hence a list), and the
identity bookkeeping (`oid` the item's own identity, `nextBoxId` the
source of fresh box ids). -/
structure Item where
  oid : Nat
  collection : String
  item_name : String
  item_id : Int
  boxes : List Box
  nextBoxId : Nat
deriving DecidableEq

/-- Item's `set collection`: validates with `isNonEmptyString` and stores
the TRIMMED string. -/
def Item.setCollection (it : Item) (e : JSVal) : Item × Option String :=
  if isNonEmptyString e then
    ({ it with collection := jsTrim e.asString }, none)
  else
    (it, some ("invalid argument for collection \x27" ++ e.display ++ "\x27"))

/-- Item's `set item_name`: validates with `isNonEmptyString` and stores
the TRIMMED string. -/
def Item.setItemName (it : Item) (e : JSVal) : Item × Option String :=
  if isNonEmptyString e then
    ({ it with item_name := jsTrim e.asString }, none)
  else
    (it, some ("invalid argument for item_name \x27" ++ e.display ++ "\x27"))

/-- Item's `set item_id`: validates with `isPositiveInt` and stores the
integer. -/
def Item.setItemId (it : Item) (e : JSVal) : Item × Option String :=
  if isPositiveInt e then
    ({ it with item_id := e.asInt }, none)
  else
    (it, some ("invalid argument for item_id \x27" ++ e.display ++ "\x27"))

/-- The loop body of `Item.addBoxes`: `e.forEach(el => { const box = new
Box(el[0], el[1], this); this.#boxes.add(box); })`.  Each successfully
built box is a fresh object, so `Set.add` appends it; an exception from
the `Box` constructor aborts the iteration, leaving the boxes added so
far in place. -/
def Item.addBoxesGo : Item → List JSVal → Item × Option String
  | it, [] => (it, none)
  | it, el :: rest =>
    match Box.make (el.index 0) (el.index 1) it.oid it.nextBoxId with
    | Except.ok box =>
        Item.addBoxesGo { it with boxes := it.boxes ++ [box], nextBoxId := it.nextBoxId + 1 } rest
    | Except.error msg => (it, some msg)

/-- Item's `addBoxes(...e)`: the rest parameter is always an array, so the
`Array.isArray(e) && e.length > 0` guard reduces to non-emptiness; then
each descriptor `el` is turned into `new Box(el[0], el[1], this)` in
order. -/
def Item.addBoxes (it : Item) (e : List JSVal) : Item × Option String :=
  if 0 < e.length then
    Item.addBoxesGo it e
  else
    (it, some ("invalid argument for boxes \x27" ++ (JSVal.varr e).display ++ "\x27"))

/-- The message of the "item must have at least one box" invariant
violation thrown by `Item.removeBox`. -/
def boxMinMsg : String := "can\x27t delete box, error: item must have at least one box"

/-- Item's `removeBox(e)`: the argument is typed `Box` here, which covers
the `e && e instanceof Box` part of the source guard (a non-Box argument
takes the same else-branch as a non-member box); `#boxes.has(e)` is
membership, and `#boxes.delete(e)` removes exactly that element.  When
the set has fewer than two boxes the invariant violation is thrown and
nothing is removed. -/
def Item.removeBox (it : Item) (e : Box) : Item × Option String :=
  if e ∈ it.boxes then
    if it.boxes.length < 2 then
      (it, some boxMinMsg)
    else
      ({ it with boxes := it.boxes.erase e }, none)
  else
    (it, some ("invalid argument for item.removeBox \x27" ++ objectDisplay ++ "\x27"))

/-- Item's constructor `new Item(collection, item_name, item_id,
...boxes)`: the class fields are installed first (`#boxes` starts as an
empty `Set`), then the constructor body assigns through the three setters
in order and calls `addBoxes`; the first failure throws and the
half-built object is unreachable.  `oid` is the fresh identity of the new
object, supplied by the caller. -/
def Item.make (oid : Nat) (collection item_name item_id : JSVal) (boxArgs : List JSVal) :
    Except String Item :=
  let it0 : Item := { oid := oid, collection := "", item_name := "", item_id := 0, boxes := [], nextBoxId := 0 }
  match it0.setCollection collection with
  | (_, some msg) => Except.error msg
  | (it1, none) =>
    match it1.setItemName item_name with
    | (_, some msg) => Except.error msg
    | (it2, none) =>
      match it2.setItemId item_id with
      | (_, some msg) => Except.error msg
      | (it3, none) =>
        match it3.addBoxes boxArgs with
        | (it4, none) => Except.ok it4
        | (_, some msg) => Except.error msg

/-- Box's `remove()`: delegates to `this.#parentItem.removeBox(this)`.
The back-reference is modelled by `b.parent = it.oid`; the owning item is
passed explicitly since the Lean values are immutable. -/
def Box.remove (b : Box) (it : Item) : Item × Option String :=
  it.removeBox b

/-- The plain record `{qty, description}` that `Item.#getDataAsJson`
builds for each box. -/
structure BoxJson where
  qty : Int
  description : String
deriving DecidableEq

/-- The plain record returned by `Item.#getDataAsOBJ`: the three scalar
fields plus the live `Box` instances copied into an array. -/
structure ItemObj where
  collection : String
  item_name : String
  item_id : Int
  boxes : List Box
deriving DecidableEq

/-- The plain record returned by `Item.#getDataAsJson`: the three scalar
fields plus the boxes reduced to `{qty, description}` records. -/
structure ItemJson where
  collection : String
  item_name : String
  item_id : Int
  boxes : List BoxJson
deriving DecidableEq

/-- One flattened row of `Item.#getDataAsTable`: the item's scalar fields
together with one box's data under the box-prefixed keys. -/
structure Row where
  collection : String
  item_name : String
  item_id : Int
  box_qty : Int
  box_description : String
deriving DecidableEq

/-- Item's `#getDataAsOBJ()`. -/
def Item.getDataAsOBJ (it : Item) : ItemObj :=
  { collection := it.collection, item_name := it.item_name, item_id := it.item_id,
    boxes := it.boxes }

/-- Item's `#getDataAsJson()`. -/
def Item.getDataAsJson (it : Item) : ItemJson :=
  { collection := it.collection, item_name := it.item_name, item_id := it.item_id,
    boxes := it.boxes.map fun v => { qty := v.qty, description := v.description } }

/-- Item's `#getDataAsTable()`: one row per box. -/
def Item.getDataAsTable (it : Item) : List Row :=
  it.boxes.map fun el =>
    { collection := it.collection, item_name := it.item_name, item_id := it.item_id,
      box_qty := el.qty, box_description := el.description }

/-- The value returned by `Item.getItemData`: one of the three view
records, or JS `null` for an unrecognized format string. -/
inductive ItemData where
  | objD (o : ItemObj)
  | jsonD (j : ItemJson)
  | tableD (rows : List Row)
  | nullD
deriving DecidableEq

/-- Item's `getItemData(e = "obj")`: throws on a format that is not a
non-empty string, lowercases it, dispatches to the three private
projections, and returns `null` (here `ItemData.nullD`) on anything
else.  Callers that rely on the JS default argument pass
`JSVal.vstr "obj"` explicitly. -/
def Item.getItemData (it : Item) (e : JSVal) : Except String ItemData :=
  if !isNonEmptyString e then
    Except.error ("invalid argument for item.getItemData \x27" ++ e.display ++ "\x27")
  else
    let f := e.toLowerCase
    if f = "obj" then Except.ok (ItemData.objD it.getDataAsOBJ)
    else if f = "json" then Except.ok (ItemData.jsonD it.getDataAsJson)
    else if f = "table" then Except.ok (ItemData.tableD it.getDataAsTable)
    else Except.ok ItemData.nullD

/-- A Container instance: the `#itemList` set (holding `Item` objects,
in insertion order) and the source of fresh item identities. -/
structure Container where
  items : List Item
  nextOid : Nat
deriving DecidableEq

/-- One argument to the Container constructor / `addItems`: either an
existing `Item` instance or a raw descriptor object
`{collection, item_name, item_id, boxes}` whose fields are arbitrary JS
values. -/
structure RawEntry where
  collection : JSVal
  item_name : JSVal
  item_id : JSVal
  boxes : JSVal

/-- An entry passed to `Container.addItems`: the `e instanceof Item` test
distinguishes the two constructors. -/
inductive Entry where
  | item (it : Item)
  | raw (r : RawEntry)

/-- Container's `addItems(...e)` loop: an existing `Item` is added to the
set (`Set.add`, a no-op when the same object is already present —
structural equality coincides with reference equality here, see the
header); a raw descriptor is converted via
`new Item(e.collection, e.item_name, e.item_id, e.boxes)` — note that
`e.boxes` is passed as ONE positional argument, so the rest parameter of
the Item constructor receives the one-element list `[e.boxes]`.  The
fresh Item object is always appended.  An exception aborts the
iteration, keeping the items added so far. -/
def Container.addItems : Container → List Entry → Container × Option String
  | c, [] => (c, none)
  | c, Entry.item it :: es =>
    Container.addItems
      (if it ∈ c.items then c else { c with items := c.items ++ [it] }) es
  | c, Entry.raw r :: es =>
    match Item.make c.nextOid r.collection r.item_name r.item_id [r.boxes] with
    | Except.ok it =>
        Container.addItems { items := c.items ++ [it], nextOid := c.nextOid + 1 } es
    | Except.error msg => (c, some msg)

/-- Container's constructor `new Container(...e)`: starts from the empty
`#itemList` and runs `addItems`. -/
def Container.make (es : List Entry) : Container × Option String :=
  Container.addItems { items := [], nextOid := 0 } es

/-- Container's `getItemsById(e)`: throws unless `e` is a positive
integer, then filters the items on `el.getItemData().item_id === e`.
`getItemData()` uses the default format `"obj"`, which returns
`#getDataAsOBJ` (lemma `Item.getItemData_obj` below), and `=== e`
compares the numeric `item_id` with the value `e`. -/
def Container.getItemsById (c : Container) (e : JSVal) : Except String (List Item) :=
  if isPositiveInt e then
    Except.ok (c.items.filter fun el =>
      match e with
      | JSVal.vint n => decide (el.getDataAsOBJ.item_id = n)
      | _ => false)
  else
    Except.error ("invalid argument for Container.getItemsById \x27" ++ e.display ++ "\x27")

/-- Container's `deleteItem(e)`: the guard is `e && e instanceof Item &&
this.#itemList.has(e)`; `none` models any argument that is not an `Item`
instance (its interpolated display then depends on the actual value,
which no claim inspects, so the word undefined stands in).  On success
`Set.delete` removes exactly the given object. -/
def Container.deleteItem (c : Container) (e : Option Item) : Container × Option String :=
  match e with
  | some it =>
    if it ∈ c.items then
      ({ c with items := c.items.erase it }, none)
    else
      (c, some ("invalid argument for Container.deleteItem \x27" ++ objectDisplay ++ "\x27"))
  | none => (c, some "invalid argument for Container.deleteItem \x27undefined\x27")

/-- The value returned by `Container.getContainerData`: for `"obj"` the
`Item` INSTANCES themselves (`Array.from(this.#itemList.values())` — not
the per-item `getItemData("obj")` records), for `"json"`/`"table"` the
per-item projection records, or JS `null` for an unrecognized format. -/
inductive ContainerData where
  | objD (items : List Item)
  | jsonD (l : List ItemJson)
  | tableD (rows : List Row)
  | nullD
deriving DecidableEq

/-- Container's `#getDataAsObj()`: the Item instances, NOT their
`getItemData("obj")` records. -/
def Container.getDataAsObj (c : Container) : List Item :=
  c.items

/-- Container's `#getDataAsJson()`: maps `el.getItemData("json")` over
the items; by lemma `Item.getItemData_json` below that call always
succeeds with the `#getDataAsJson` record, which is what the resulting
JS array holds. -/
def Container.getDataAsJson (c : Container) : List ItemJson :=
  c.items.map Item.getDataAsJson

/-- Container's `#getDataAsTable()`: maps `el.getItemData("table")` over
the items (always the `#getDataAsTable` row list, lemma
`Item.getItemData_table` below) and flattens one level with `.flat()`. -/
def Container.getDataAsTable (c : Container) : List Row :=
  (c.items.map Item.getDataAsTable).flatten

/-- Container's `getContainerData(e)`: same validation and dispatch shape
as `Item.getItemData`, returning `null` on an unrecognized format. -/
def Container.getContainerData (c : Container) (e : JSVal) : Except String ContainerData :=
  if !isNonEmptyString e then
    Except.error ("invalid argument for Container.getContainerData \x27" ++ e.display ++ "\x27")
  else
    let f := e.toLowerCase
    if f = "obj" then Except.ok (ContainerData.objD c.getDataAsObj)
    else if f = "json" then Except.ok (ContainerData.jsonD c.getDataAsJson)
    else if f = "table" then Except.ok (ContainerData.tableD c.getDataAsTable)
    else Except.ok ContainerData.nullD

deriving instance DecidableEq for Except

/-- A nonempty string has positive length. -/
theorem length_pos_of_ne_empty (s : String) (h : s ≠ "") : 0 < s.length := by
  cases s with
  | mk l =>
    cases l with
    | nil => exact absurd rfl h
    | cons c cs => simp [String.length]

/-- A string of positive length is nonempty. -/
theorem ne_empty_of_length_pos (s : String) (h : 0 < s.length) : s ≠ "" := by
  intro he
  rw [he] at h
  exact absurd h (by decide)

/-- `isNonEmptyString` on a string value holds exactly when the trimmed
string is nonempty. -/
theorem isNonEmptyString_iff (s : String) :
    isNonEmptyString (JSVal.vstr s) = true ↔ jsTrim s ≠ "" := by
  simp only [isNonEmptyString, decide_eq_true_eq]
  exact ⟨fun h => ne_empty_of_length_pos _ h, fun h => length_pos_of_ne_empty _ h⟩

/-- Unfolding of `Item.getItemData` for a format string that passes the
`isNonEmptyString` guard: the dispatch is on the lowercased format. -/
theorem Item.getItemData_format (it : Item) (s : String) (h : jsTrim s ≠ "") :
    it.getItemData (JSVal.vstr s) =
      (if jsToLower s = "obj" then Except.ok (ItemData.objD it.getDataAsOBJ)
       else if jsToLower s = "json" then Except.ok (ItemData.jsonD it.getDataAsJson)
       else if jsToLower s = "table" then Except.ok (ItemData.tableD it.getDataAsTable)
       else Except.ok ItemData.nullD) := by
  have h1 : isNonEmptyString (JSVal.vstr s) = true := (isNonEmptyString_iff s).2 h
  simp [Item.getItemData, h1, JSVal.toLowerCase]

/-- Unfolding of `Container.getContainerData` for a format string that
passes the `isNonEmptyString` guard. -/
theorem Container.getContainerData_format (c : Container) (s : String) (h : jsTrim s ≠ "") :
    c.getContainerData (JSVal.vstr s) =
      (if jsToLower s = "obj" then Except.ok (ContainerData.objD c.getDataAsObj)
       else if jsToLower s = "json" then Except.ok (ContainerData.jsonD c.getDataAsJson)
       else if jsToLower s = "table" then Except.ok (ContainerData.tableD c.getDataAsTable)
       else Except.ok ContainerData.nullD) := by
  have h1 : isNonEmptyString (JSVal.vstr s) = true := (isNonEmptyString_iff s).2 h
  simp [Container.getContainerData, h1, JSVal.toLowerCase]

/-- The call `el.getItemData()` (JS default argument `"obj"`) returns the
`#getDataAsOBJ` record; used by `Container.getItemsById`. -/
theorem Item.getItemData_obj (it : Item) :
    it.getItemData (JSVal.vstr "obj") = Except.ok (ItemData.objD it.getDataAsOBJ) := rfl

/-- The call `el.getItemData("json")` made by `Container.#getDataAsJson`
always returns the `#getDataAsJson` record. -/
theorem Item.getItemData_json (it : Item) :
    it.getItemData (JSVal.vstr "json") = Except.ok (ItemData.jsonD it.getDataAsJson) := rfl

/-- The call `el.getItemData("table")` made by `Container.#getDataAsTable`
always returns the `#getDataAsTable` row list. -/
theorem Item.getItemData_table (it : Item) :
    it.getItemData (JSVal.vstr "table") = Except.ok (ItemData.tableD it.getDataAsTable) := rfl

/-!  Concrete exemplar objects, used by the witnesses and counterexamples.
`exBoxA`/`exBoxB` are the two boxes of `exItemTwo`; `exItemOne` has a
single box; `exItemDup` is a distinct Item instance sharing `item_id = 3`
with `exItemTwo`; `exCont` holds both. -/

def exBoxA : Box := ⟨0, 5, "small", 0⟩

def exBoxB : Box := ⟨1, 10, "large", 0⟩

def exItemOne : Item := ⟨0, "col", "name", 1, [exBoxA], 1⟩

def exItemTwo : Item := ⟨0, "col", "name", 3, [exBoxA, exBoxB], 2⟩

def exItemDup : Item := ⟨1, "colB", "nameB", 3, [⟨0, 2, "x", 1⟩], 1⟩

def exCont : Container := ⟨[exItemTwo, exItemDup], 2⟩

/-- C7: for every Item with exactly two boxes, `getItemData("table")`
returns a sequence of exactly two records, one per box, each holding the
scalar fields of the Item together with that box qty and description
under the box-prefixed keys. -/
theorem getItemData_table_two_boxes (it : Item) (b1 b2 : Box) (h : it.boxes = [b1, b2]) :
    it.getItemData (JSVal.vstr "table") =
      Except.ok (ItemData.tableD
        [⟨it.collection, it.item_name, it.item_id, b1.qty, b1.description⟩,
         ⟨it.collection, it.item_name, it.item_id, b2.qty, b2.description⟩]) := by
  rw [Item.getItemData_table, Item.getDataAsTable, h]
  rfl

/-- C7 witness: the two-box exemplar item evaluates to exactly two rows. -/
theorem getItemData_table_two_boxes_witness :
    exItemTwo.getItemData (JSVal.vstr "table") =
      Except.ok (ItemData.tableD
        [⟨exItemTwo.collection, exItemTwo.item_name, exItemTwo.item_id, exBoxA.qty, exBoxA.description⟩,
         ⟨exItemTwo.collection, exItemTwo.item_name, exItemTwo.item_id, exBoxB.qty, exBoxB.description⟩]) :=
  getItemData_table_two_boxes exItemTwo exBoxA exBoxB rfl

/-- C5 (amended): for every format string that is non-empty AFTER
TRIMMING and whose lowercase form is none of obj, json, table, both
`Item.getItemData` and `Container.getContainerData` return null and do
not throw.  (The claim as frozen asked this of every non-empty string;
the whitespace-only counterexample below shows the trim is needed.) -/
theorem unknown_format_returns_null (it : Item) (c : Container) (s : String)
    (h : jsTrim s ≠ "") (ho : jsToLower s ≠ "obj") (hj : jsToLower s ≠ "json")
    (ht : jsToLower s ≠ "table") :
    it.getItemData (JSVal.vstr s) = Except.ok ItemData.nullD ∧
    c.getContainerData (JSVal.vstr s) = Except.ok ContainerData.nullD := by
  rw [Item.getItemData_format it s h, Container.getContainerData_format c s h]
  rw [if_neg ho, if_neg hj, if_neg ht, if_neg ho, if_neg hj, if_neg ht]
  exact ⟨rfl, rfl⟩

/-- C5 witness: the unrecognized format "csv" yields null on the exemplar
item and container. -/
theorem unknown_format_returns_null_witness :
    exItemOne.getItemData (JSVal.vstr "csv") = Except.ok ItemData.nullD ∧
    exCont.getContainerData (JSVal.vstr "csv") = Except.ok ContainerData.nullD :=
  unknown_format_returns_null exItemOne exCont "csv"
    (by decide) (by decide) (by decide) (by decide)

/-- C5 counterexample: the single space is a non-empty string whose
lowercase form is not obj, json or table, yet `getItemData` and
`getContainerData` THROW a validation error on it instead of returning
null, because `isNonEmptyString` measures the TRIMMED length. -/
theorem unknown_format_throws_on_blank_cex :
    (" " : String) ≠ "" ∧ jsToLower " " ≠ "obj" ∧ jsToLower " " ≠ "json" ∧
    jsToLower " " ≠ "table" ∧
    (match exItemOne.getItemData (JSVal.vstr " ") with
      | Except.error _ => True
      | Except.ok _ => False) ∧
    (match exCont.getContainerData (JSVal.vstr " ") with
      | Except.error _ => True
      | Except.ok _ => False) := by
  refine ⟨by decide, by decide, by decide, by decide, ?_, ?_⟩ <;> exact trivial

/-- C6 (amended): Box description validation (constructor and setter)
accepts exactly the strings that are non-empty AFTER TRIMMING (the
`isNonEmptyString` check trims); the accepted value is stored exactly as
given, NOT trimmed; non-string values are rejected; and qty and
description are validated independently on each assignment — a
description assignment never touches qty and vice versa.  (The claim as
frozen said every non-empty string, whitespace-only included, is
accepted; the counterexample below refutes that.) -/
theorem box_description_validation (b : Box) (s : String) (e : JSVal) :
    ((b.setDescription (JSVal.vstr s)).2 = none ↔ jsTrim s ≠ "") ∧
    (jsTrim s ≠ "" → (b.setDescription (JSVal.vstr s)).1 = { b with description := s }) ∧
    (jsTrim s = "" → (b.setDescription (JSVal.vstr s)).1 = b) ∧
    ((b.setDescription e).1.qty = b.qty) ∧
    ((b.setQty e).1.description = b.description) ∧
    (∀ q : JSVal, ∀ parent id : Nat, isPositiveInt q = true → jsTrim s ≠ "" →
      Box.make q (JSVal.vstr s) parent id = Except.ok ⟨id, q.asInt, s, parent⟩) := by
  refine ⟨?_, ?_, ?_, ?_, ?_, ?_⟩
  · constructor
    · intro h
      by_contra he
      have hf : isNonEmptyString (JSVal.vstr s) = false := by
        cases hh : isNonEmptyString (JSVal.vstr s)
        · rfl
        · exact absurd ((isNonEmptyString_iff s).1 hh) (by rw [he]; simp)
      simp [Box.setDescription, hf] at h
    · intro h
      simp [Box.setDescription, (isNonEmptyString_iff s).2 h]
  · intro h
    simp [Box.setDescription, (isNonEmptyString_iff s).2 h, JSVal.asString]
  · intro h
    have hf : isNonEmptyString (JSVal.vstr s) = false := by
      cases hh : isNonEmptyString (JSVal.vstr s)
      · rfl
      · exact absurd ((isNonEmptyString_iff s).1 hh) (by rw [h]; simp)
    simp [Box.setDescription, hf]
  · by_cases hd : isNonEmptyString e = true
    · simp [Box.setDescription, hd]
    · simp [Box.setDescription, Bool.of_not_eq_true hd]
  · by_cases hq : isPositiveInt e = true
    · simp [Box.setQty, hq]
    · simp [Box.setQty, Bool.of_not_eq_true hq]
  · intro q parent id hq hs
    simp [Box.make, hq, (isNonEmptyString_iff s).2 hs, JSVal.asString]

/-- C6 witness: the untrimmed string with inner spaces " x " is accepted
and stored verbatim by the setter and the constructor, and the setter
leaves qty alone. -/
theorem box_description_validation_witness :
    ((exBoxA.setDescription (JSVal.vstr " x ")).2 = none ↔ jsTrim " x " ≠ "") ∧
    (jsTrim " x " ≠ "" →
      (exBoxA.setDescription (JSVal.vstr " x ")).1 = { exBoxA with description := " x " }) ∧
    (jsTrim " x " = "" → (exBoxA.setDescription (JSVal.vstr " x ")).1 = exBoxA) ∧
    ((exBoxA.setDescription (JSVal.vint 4)).1.qty = exBoxA.qty) ∧
    ((exBoxA.setQty (JSVal.vint 4)).1.description = exBoxA.description) ∧
    (∀ q : JSVal, ∀ parent id : Nat, isPositiveInt q = true → jsTrim " x " ≠ "" →
      Box.make q (JSVal.vstr " x ") parent id = Except.ok ⟨id, q.asInt, " x ", parent⟩) :=
  box_description_validation exBoxA " x " (JSVal.vint 4)

/-- C6 counterexample: the single space is a non-empty string, yet both
the Box constructor and the description setter REJECT it, because the
validation trims before measuring the length — refuting the claim that
every non-empty string, whitespace-only ones included, is accepted. -/
theorem box_description_whitespace_rejected_cex :
    (" " : String) ≠ "" ∧
    (exBoxA.setDescription (JSVal.vstr " ")).2 ≠ none ∧
    (exBoxA.setDescription (JSVal.vstr " ")).1 = exBoxA ∧
    (match Box.make (JSVal.vint 5) (JSVal.vstr " ") 0 0 with
      | Except.error _ => True
      | Except.ok _ => False) := by
  refine ⟨by decide, by decide, by decide, trivial⟩

/-- C2: for every Item and every Box in its own box set, `removeBox`
(equivalently the delegating `Box.remove`) throws the invariant
violation exactly when the box set has size 1 at the time of the call;
on that rejection the item is unchanged and the box is still present;
with size at least 2 the call succeeds and deletes exactly that box. -/
theorem removeBox_invariant_trigger (it : Item) (b : Box) (hb : b ∈ it.boxes) :
    ((it.removeBox b).2 = some boxMinMsg ↔ it.boxes.length = 1) ∧
    (it.boxes.length = 1 → (it.removeBox b).1 = it ∧ b ∈ (it.removeBox b).1.boxes) ∧
    (2 ≤ it.boxes.length →
      (it.removeBox b).2 = none ∧ (it.removeBox b).1.boxes = it.boxes.erase b) ∧
    Box.remove b it = it.removeBox b := by
  have hpos : 0 < it.boxes.length := List.length_pos.2 (List.ne_nil_of_mem hb)
  refine ⟨?_, ?_, ?_, rfl⟩
  · constructor
    · intro h
      by_contra hne
      have h2 : 2 ≤ it.boxes.length := by omega
      have : (it.removeBox b).2 = none := by
        simp [Item.removeBox, hb, Nat.not_lt.2 h2]
      rw [this] at h
      exact Option.noConfusion h
    · intro h1
      simp [Item.removeBox, hb, h1]
  · intro h1
    have : it.removeBox b = (it, some boxMinMsg) := by
      simp [Item.removeBox, hb, h1]
    rw [this]
    exact ⟨rfl, hb⟩
  · intro h2
    simp [Item.removeBox, hb, Nat.not_lt.2 h2]

/-- C2 witness: on the one-box exemplar item, removing its sole box
throws the invariant violation and leaves the box in place. -/
theorem removeBox_invariant_trigger_witness :
    ((exItemOne.removeBox exBoxA).2 = some boxMinMsg ↔ exItemOne.boxes.length = 1) ∧
    (exItemOne.boxes.length = 1 →
      (exItemOne.removeBox exBoxA).1 = exItemOne ∧ exBoxA ∈ (exItemOne.removeBox exBoxA).1.boxes) ∧
    (2 ≤ exItemOne.boxes.length →
      (exItemOne.removeBox exBoxA).2 = none ∧
      (exItemOne.removeBox exBoxA).1.boxes = exItemOne.boxes.erase exBoxA) ∧
    Box.remove exBoxA exItemOne = exItemOne.removeBox exBoxA :=
  removeBox_invariant_trigger exItemOne exBoxA (by decide)

/-- C8: `getItemsById` throws a validation error for every argument that
is not a positive integer; for a positive integer it returns exactly the
contained Items whose `item_id` equals it — zero, one or more, with no
uniqueness across distinct instances. -/
theorem getItemsById_spec (c : Container) (e : JSVal) :
    (isPositiveInt e = false →
      (match c.getItemsById e with
        | Except.error _ => True
        | Except.ok _ => False)) ∧
    (∀ n : Int, e = JSVal.vint n → 0 < n →
      c.getItemsById e = Except.ok (c.items.filter fun el => decide (el.item_id = n))) := by
  constructor
  · intro hf
    simp [Container.getItemsById, hf]
  · rintro n rfl hn
    have hp : isPositiveInt (JSVal.vint n) = true := by
      simp [isPositiveInt, hn]
    simp only [Container.getItemsById, hp, if_true]
    rfl

/-- C8 witness: on the exemplar container holding two distinct Item
instances that share `item_id = 3`, looking the id up returns both. -/
theorem getItemsById_spec_witness :
    exCont.getItemsById (JSVal.vint 3) =
      Except.ok (exCont.items.filter fun el => decide (el.item_id = 3)) ∧
    exCont.items.filter (fun el => decide (el.item_id = 3)) = [exItemTwo, exItemDup] :=
  ⟨(getItemsById_spec exCont (JSVal.vint 3)).2 3 rfl (by decide), by decide⟩

/-- C9: `deleteItem` throws a validation error whenever the argument is
not an Item instance present in the container (`none` models a non-Item
value) and then leaves the item set unchanged; when the instance is
present it is removed from the set and nothing else changes — in
particular the removed Item value itself, boxes included, is untouched. -/
theorem deleteItem_spec (c : Container) (e : Option Item) :
    (e = none →
      (c.deleteItem e).1 = c ∧ (c.deleteItem e).2 ≠ none) ∧
    (∀ it : Item, e = some it → it ∉ c.items →
      (c.deleteItem e).1 = c ∧ (c.deleteItem e).2 ≠ none) ∧
    (∀ it : Item, e = some it → it ∈ c.items →
      c.deleteItem e = ({ c with items := c.items.erase it }, none)) := by
  refine ⟨?_, ?_, ?_⟩
  · rintro rfl
    exact ⟨rfl, by simp [Container.deleteItem]⟩
  · rintro it rfl hm
    simp [Container.deleteItem, hm]
  · rintro it rfl hm
    simp [Container.deleteItem, hm]

/-- C9 witness: deleting the absent exemplar item fails and leaves the
container unchanged; deleting a present one removes exactly it. -/
theorem deleteItem_spec_witness :
    ((exCont.deleteItem (some exItemOne)).1 = exCont ∧
      (exCont.deleteItem (some exItemOne)).2 ≠ none) ∧
    exCont.deleteItem (some exItemDup) =
      ({ exCont with items := exCont.items.erase exItemDup }, none) :=
  ⟨(deleteItem_spec exCont (some exItemOne)).2.1 exItemOne rfl (by decide),
   (deleteItem_spec exCont (some exItemDup)).2.2 exItemDup rfl (by decide)⟩

/-- A JS value that can stand as one entry of the container obj view or
of the delegated per-item results: either an Item INSTANCE (what
`Array.from(#itemList.values())` yields) or a plain RECORD (what
`getItemData("obj")` builds — a fresh object whose own enumerable
properties are the four data fields, while an Item instance exposes no
enumerable fields at all, its state being private).  As JS values the two
kinds are never equal, which the two constructors record. -/
inductive ObjEntry where
  | inst (it : Item)
  | record (o : ItemObj)

/-- C3 (amended): for the json and table formats (case-insensitively)
`getContainerData` equals the concatenation of the contained Items
`getItemData` results — for table flattened one level into a single row
sequence; for the obj format it instead returns the list of the Item
instances themselves, NOT the per-item `getItemData("obj")` records. -/
theorem getContainerData_views (c : Container) (s : String) (h : jsTrim s ≠ "") :
    (jsToLower s = "obj" →
      c.getContainerData (JSVal.vstr s) = Except.ok (ContainerData.objD c.items)) ∧
    (jsToLower s = "json" →
      c.getContainerData (JSVal.vstr s) =
        Except.ok (ContainerData.jsonD (c.items.map Item.getDataAsJson)) ∧
      c.items.map (fun it => it.getItemData (JSVal.vstr "json")) =
        c.items.map (fun it => Except.ok (ItemData.jsonD it.getDataAsJson))) ∧
    (jsToLower s = "table" →
      c.getContainerData (JSVal.vstr s) =
        Except.ok (ContainerData.tableD ((c.items.map Item.getDataAsTable).flatten)) ∧
      c.items.map (fun it => it.getItemData (JSVal.vstr "table")) =
        c.items.map (fun it => Except.ok (ItemData.tableD it.getDataAsTable))) := by
  have hfmt := Container.getContainerData_format c s h
  refine ⟨?_, ?_, ?_⟩
  · intro ho
    rw [hfmt, if_pos ho]
    rfl
  · intro hj
    refine ⟨?_, ?_⟩
    · rw [hfmt, if_neg (by rw [hj]; decide), if_pos hj]
      rfl
    · simp [Item.getItemData_json]
  · intro ht
    refine ⟨?_, ?_⟩
    · rw [hfmt, if_neg (by rw [ht]; decide), if_neg (by rw [ht]; decide), if_pos ht]
      rfl
    · simp [Item.getItemData_table]

/-- C3 witness: on the exemplar container the uppercase format "TABLE"
matches case-insensitively and yields the one-level flattening of the
per-item `getItemData("table")` row lists. -/
theorem getContainerData_views_witness :
    exCont.getContainerData (JSVal.vstr "TABLE") =
      Except.ok (ContainerData.tableD ((exCont.items.map Item.getDataAsTable).flatten)) ∧
    exCont.items.map (fun it => it.getItemData (JSVal.vstr "table")) =
      exCont.items.map (fun it => Except.ok (ItemData.tableD it.getDataAsTable)) :=
  (getContainerData_views exCont "TABLE" (by decide)).2.2 (by decide)

/-- C3 counterexample: on a concrete container `getContainerData("obj")`
returns the Item instances themselves, while delegation to each
contained Item would return the fresh `getItemData("obj")` records; as
JS values an instance entry and a record entry are distinct, so for the
obj format the container data does NOT equal the concatenation of the
per-item `getItemData` results. -/
theorem getContainerData_obj_not_delegated_cex :
    exCont.getContainerData (JSVal.vstr "obj") =
      Except.ok (ContainerData.objD [exItemTwo, exItemDup]) ∧
    exItemTwo.getItemData (JSVal.vstr "obj") =
      Except.ok (ItemData.objD exItemTwo.getDataAsOBJ) ∧
    exItemDup.getItemData (JSVal.vstr "obj") =
      Except.ok (ItemData.objD exItemDup.getDataAsOBJ) ∧
    [ObjEntry.inst exItemTwo, ObjEntry.inst exItemDup] ≠
      [ObjEntry.record exItemTwo.getDataAsOBJ, ObjEntry.record exItemDup.getDataAsOBJ] := by
  refine ⟨rfl, rfl, rfl, ?_⟩
  intro hcontra
  injection hcontra with h1 _
  exact ObjEntry.noConfusion h1

/-- A box descriptor `el` on which `new Box(el[0], el[1], this)`
succeeds: `el[0]` passes `isPositiveInt` and `el[1]` passes
`isNonEmptyString`. -/
def validBoxDesc (el : JSVal) : Bool :=
  isPositiveInt (el.index 0) && isNonEmptyString (el.index 1)

/-- The boxes that a run of valid descriptors adds: one box per
descriptor, ids counting up from `start`, all owned by item `oid`. -/
def boxesFrom (oid : Nat) (start : Nat) : List JSVal → List Box
  | [] => []
  | el :: rest => ⟨start, (el.index 0).asInt, (el.index 1).asString, oid⟩ :: boxesFrom oid (start + 1) rest

/-- `boxesFrom` yields exactly one box per descriptor. -/
theorem boxesFrom_length (oid start : Nat) (l : List JSVal) :
    (boxesFrom oid start l).length = l.length := by
  induction l generalizing start with
  | nil => rfl
  | cons el rest ih => simp [boxesFrom, ih]

/-- On a valid descriptor the Box constructor succeeds with the indexed
qty and description. -/
theorem Box.make_valid (el : JSVal) (parent id : Nat) (h : validBoxDesc el = true) :
    Box.make (el.index 0) (el.index 1) parent id =
      Except.ok ⟨id, (el.index 0).asInt, (el.index 1).asString, parent⟩ := by
  have hq : isPositiveInt (el.index 0) = true := by
    have := h
    simp [validBoxDesc, Bool.and_eq_true] at this
    exact this.1
  have hd : isNonEmptyString (el.index 1) = true := by
    have := h
    simp [validBoxDesc, Bool.and_eq_true] at this
    exact this.2
  simp [Box.make, hq, hd]

/-- On an invalid descriptor the Box constructor never returns a box. -/
theorem Box.make_invalid (el : JSVal) (parent id : Nat) (h : validBoxDesc el = false) (b : Box) :
    Box.make (el.index 0) (el.index 1) parent id ≠ Except.ok b := by
  intro hc
  rw [validBoxDesc, Bool.and_eq_false_iff] at h
  cases h with
  | inl hq => simp [Box.make, hq] at hc
  | inr hd =>
    cases hq : isPositiveInt (el.index 0) with
    | false => simp [Box.make, hq] at hc
    | true => simp [Box.make, hq, hd] at hc

/-- Running the `addBoxes` loop over a fully valid descriptor list
appends exactly the corresponding boxes and advances the id counter. -/
theorem Item.addBoxesGo_valid (pre : List JSVal) :
    ∀ (it : Item) (l : List JSVal), (∀ el ∈ pre, validBoxDesc el = true) →
      Item.addBoxesGo it (pre ++ l) =
        Item.addBoxesGo
          { it with boxes := it.boxes ++ boxesFrom it.oid it.nextBoxId pre,
                    nextBoxId := it.nextBoxId + pre.length } l := by
  induction pre with
  | nil => intro it l _; simp [boxesFrom]
  | cons el rest ih =>
    intro it l hv
    have hel : validBoxDesc el = true := hv el (List.mem_cons_self el rest)
    have hrest : ∀ x ∈ rest, validBoxDesc x = true := fun x hx => hv x (List.mem_cons_of_mem el hx)
    rw [List.cons_append]
    simp only [Item.addBoxesGo, Box.make_valid el it.oid it.nextBoxId hel]
    rw [ih _ l hrest]
    simp [boxesFrom, List.append_assoc, Nat.add_assoc, Nat.add_comm 1 rest.length]

/-- The `addBoxes` loop stops at the first invalid descriptor: the
exception propagates and the item is left as it stood at that point. -/
theorem Item.addBoxesGo_stops (it : Item) (d : JSVal) (rest : List JSVal)
    (hd : validBoxDesc d = false) :
    (Item.addBoxesGo it (d :: rest)).1 = it ∧
    (Item.addBoxesGo it (d :: rest)).2.isSome = true := by
  cases hm : Box.make (d.index 0) (d.index 1) it.oid it.nextBoxId with
  | ok b => exact absurd hm (Box.make_invalid d it.oid it.nextBoxId hd b)
  | error m => simp [Item.addBoxesGo, hm]

/-- C10: `Item.addBoxes` is not atomic on failure: when the first k
descriptors (k at least 1) are valid and the next one is invalid, the
call throws, yet the k boxes built from the valid ones have already been
added to the box set and remain there after the throw. -/
theorem addBoxes_not_atomic (it : Item) (pre : List JSVal) (d : JSVal) (rest : List JSVal)
    (hpre : ∀ el ∈ pre, validBoxDesc el = true) (hd : validBoxDesc d = false)
    (_hk : 1 ≤ pre.length) :
    (it.addBoxes (pre ++ d :: rest)).2.isSome = true ∧
    (it.addBoxes (pre ++ d :: rest)).1.boxes =
      it.boxes ++ boxesFrom it.oid it.nextBoxId pre ∧
    (boxesFrom it.oid it.nextBoxId pre).length = pre.length := by
  have hlen : 0 < (pre ++ d :: rest).length := by simp
  rw [Item.addBoxes, if_pos hlen, Item.addBoxesGo_valid pre it (d :: rest) hpre]
  have hstop := Item.addBoxesGo_stops
    { it with boxes := it.boxes ++ boxesFrom it.oid it.nextBoxId pre,
              nextBoxId := it.nextBoxId + pre.length } d rest hd
  refine ⟨hstop.2, ?_, boxesFrom_length _ _ _⟩
  rw [hstop.1]

/-- C10 witness: adding a valid descriptor followed by a zero-qty one to
the one-box exemplar throws, yet the box from the valid descriptor has
been added and stays. -/
theorem addBoxes_not_atomic_witness :
    (exItemOne.addBoxes
      [JSVal.varr [JSVal.vint 2, JSVal.vstr "a"],
       JSVal.varr [JSVal.vint 0, JSVal.vstr "b"]]).2.isSome = true ∧
    (exItemOne.addBoxes
      [JSVal.varr [JSVal.vint 2, JSVal.vstr "a"],
       JSVal.varr [JSVal.vint 0, JSVal.vstr "b"]]).1.boxes =
      exItemOne.boxes ++ boxesFrom exItemOne.oid exItemOne.nextBoxId
        [JSVal.varr [JSVal.vint 2, JSVal.vstr "a"]] ∧
    (boxesFrom exItemOne.oid exItemOne.nextBoxId
      [JSVal.varr [JSVal.vint 2, JSVal.vstr "a"]]).length =
      [JSVal.varr [JSVal.vint 2, JSVal.vstr "a"]].length :=
  addBoxes_not_atomic exItemOne
    [JSVal.varr [JSVal.vint 2, JSVal.vstr "a"]]
    (JSVal.varr [JSVal.vint 0, JSVal.vstr "b"]) []
    (by decide) (by decide) (by decide)

/-- A raw descriptor on which the Container constructor path succeeds:
the three scalar fields pass their validators and `boxes` is itself
pair-shaped (`boxes[0]` a positive integer, `boxes[1]` a non-empty
string), because `new Item(e.collection, e.item_name, e.item_id,
e.boxes)` passes `e.boxes` as the ONE rest argument, so the Box
constructor indexes directly into it. -/
def RawEntry.wellFormed (r : RawEntry) : Bool :=
  isNonEmptyString r.collection && isNonEmptyString r.item_name && isPositiveInt r.item_id &&
    validBoxDesc r.boxes

/-- A value accepted by `isPositiveInt` is the integer it wraps. -/
theorem vint_asInt (e : JSVal) (h : isPositiveInt e = true) : JSVal.vint e.asInt = e := by
  cases e with
  | vint n => rfl
  | vstr s => simp [isPositiveInt] at h
  | varr l => simp [isPositiveInt] at h
  | vundef => simp [isPositiveInt] at h

/-- On a well-formed raw descriptor the Item constructor, called the way
`Container.addItems` calls it, succeeds and builds the one-box item with
trimmed scalar strings. -/
theorem Item.make_raw (oid : Nat) (r : RawEntry) (h : r.wellFormed = true) :
    Item.make oid r.collection r.item_name r.item_id [r.boxes] =
      Except.ok ⟨oid, jsTrim r.collection.asString, jsTrim r.item_name.asString,
        r.item_id.asInt, [⟨0, (r.boxes.index 0).asInt, (r.boxes.index 1).asString, oid⟩], 1⟩ := by
  rw [RawEntry.wellFormed] at h
  simp only [Bool.and_eq_true] at h
  obtain ⟨⟨⟨hc, hn⟩, hi⟩, hb⟩ := h
  simp only [Item.make, Item.setCollection, Item.setItemName, Item.setItemId, hc, hn, hi,
    if_true, Item.addBoxes, List.length_cons, List.length_nil, Nat.zero_lt_one, if_pos,
    Item.addBoxesGo, Box.make_valid r.boxes oid 0 hb]
  simp

/-- One step of `Container.addItems` over raw descriptors: a well-formed
descriptor appends one fresh Item and the loop continues. -/
theorem Container.addItems_raw_all (rs : List RawEntry) :
    ∀ (c : Container), (∀ r ∈ rs, r.wellFormed = true) →
      (Container.addItems c (rs.map Entry.raw)).2 = none ∧
      (Container.addItems c (rs.map Entry.raw)).1.items.map Item.collection =
        c.items.map Item.collection ++ rs.map (fun r => jsTrim r.collection.asString) ∧
      (Container.addItems c (rs.map Entry.raw)).1.items.map Item.item_name =
        c.items.map Item.item_name ++ rs.map (fun r => jsTrim r.item_name.asString) ∧
      (Container.addItems c (rs.map Entry.raw)).1.items.map (fun it => JSVal.vint it.item_id) =
        c.items.map (fun it => JSVal.vint it.item_id) ++ rs.map RawEntry.item_id := by
  induction rs with
  | nil => intro c _; simp [Container.addItems]
  | cons r rest ih =>
    intro c hwf
    have hr : r.wellFormed = true := hwf r (List.mem_cons_self r rest)
    have hrest : ∀ x ∈ rest, x.wellFormed = true := fun x hx => hwf x (List.mem_cons_of_mem r hx)
    have hid : JSVal.vint r.item_id.asInt = r.item_id := by
      rw [RawEntry.wellFormed] at hr
      simp only [Bool.and_eq_true] at hr
      exact vint_asInt r.item_id hr.1.2
    simp only [List.map_cons, Container.addItems, Item.make_raw c.nextOid r hr]
    have := ih ⟨c.items ++
        [⟨c.nextOid, jsTrim r.collection.asString, jsTrim r.item_name.asString,
          r.item_id.asInt, [⟨0, (r.boxes.index 0).asInt, (r.boxes.index 1).asString, c.nextOid⟩], 1⟩],
        c.nextOid + 1⟩ hrest
    refine ⟨this.1, ?_, ?_, ?_⟩
    · rw [this.2.1]; simp
    · rw [this.2.2.1]; simp
    · rw [this.2.2.2]; simp [hid]

/-- C4 round-trip: constructing a Container from N well-formed raw
descriptors succeeds, and `getContainerData("obj")` then yields exactly
the N constructed entries, whose scalar fields are the descriptors
fields — collection and item_name trimmed, item_id as given. -/
theorem container_raw_roundtrip (rs : List RawEntry) (h : ∀ r ∈ rs, r.wellFormed = true) :
    (Container.make (rs.map Entry.raw)).2 = none ∧
    (Container.make (rs.map Entry.raw)).1.getContainerData (JSVal.vstr "obj") =
      Except.ok (ContainerData.objD (Container.make (rs.map Entry.raw)).1.items) ∧
    (Container.make (rs.map Entry.raw)).1.items.length = rs.length ∧
    (Container.make (rs.map Entry.raw)).1.items.map Item.collection =
      rs.map (fun r => jsTrim r.collection.asString) ∧
    (Container.make (rs.map Entry.raw)).1.items.map Item.item_name =
      rs.map (fun r => jsTrim r.item_name.asString) ∧
    (Container.make (rs.map Entry.raw)).1.items.map (fun it => JSVal.vint it.item_id) =
      rs.map RawEntry.item_id := by
  have hall := Container.addItems_raw_all rs ⟨[], 0⟩ h
  rw [Container.make]
  refine ⟨hall.1, rfl, ?_, ?_, ?_, ?_⟩
  · have := congrArg List.length hall.2.1
    simpa using this
  · simpa using hall.2.1
  · simpa using hall.2.2.1
  · simpa using hall.2.2.2

/-- Exemplar raw descriptors for the round-trip witness: scalar strings
that need trimming, and a boxes value with a trailing extra element the
constructor ignores. -/
def exRaw1 : RawEntry :=
  ⟨JSVal.vstr " kitchen ", JSVal.vstr "plates", JSVal.vint 1,
    JSVal.varr [JSVal.vint 5, JSVal.vstr "small"]⟩

def exRaw2 : RawEntry :=
  ⟨JSVal.vstr "garage", JSVal.vstr " tools", JSVal.vint 2,
    JSVal.varr [JSVal.vint 3, JSVal.vstr "big", JSVal.vint 9]⟩

/-- C4 witness: two concrete descriptors round-trip into two entries with
matching trimmed scalars. -/
theorem container_raw_roundtrip_witness :
    (Container.make ([exRaw1, exRaw2].map Entry.raw)).2 = none ∧
    (Container.make ([exRaw1, exRaw2].map Entry.raw)).1.getContainerData (JSVal.vstr "obj") =
      Except.ok (ContainerData.objD (Container.make ([exRaw1, exRaw2].map Entry.raw)).1.items) ∧
    (Container.make ([exRaw1, exRaw2].map Entry.raw)).1.items.length = [exRaw1, exRaw2].length ∧
    (Container.make ([exRaw1, exRaw2].map Entry.raw)).1.items.map Item.collection =
      [exRaw1, exRaw2].map (fun r => jsTrim r.collection.asString) ∧
    (Container.make ([exRaw1, exRaw2].map Entry.raw)).1.items.map Item.item_name =
      [exRaw1, exRaw2].map (fun r => jsTrim r.item_name.asString) ∧
    (Container.make ([exRaw1, exRaw2].map Entry.raw)).1.items.map (fun it => JSVal.vint it.item_id) =
      [exRaw1, exRaw2].map RawEntry.item_id :=
  container_raw_roundtrip [exRaw1, exRaw2] (by decide)

/-- The `addBoxes` loop never removes a box. -/
theorem Item.addBoxesGo_len_mono (l : List JSVal) :
    ∀ it : Item, it.boxes.length ≤ (Item.addBoxesGo it l).1.boxes.length := by
  induction l with
  | nil => intro it; exact Nat.le_refl _
  | cons el rest ih =>
    intro it
    cases hm : Box.make (el.index 0) (el.index 1) it.oid it.nextBoxId with
    | ok b =>
      have := ih { it with boxes := it.boxes ++ [b], nextBoxId := it.nextBoxId + 1 }
      simp only [Item.addBoxesGo, hm]
      calc it.boxes.length ≤ (it.boxes ++ [b]).length := by simp
        _ ≤ _ := this
    | error m => simp [Item.addBoxesGo, hm]

/-- `addBoxes` never removes a box (the throwing branch leaves the item
unchanged, success only appends). -/
theorem Item.addBoxes_len_mono (it : Item) (l : List JSVal) :
    it.boxes.length ≤ (it.addBoxes l).1.boxes.length := by
  rw [Item.addBoxes]
  by_cases hl : 0 < l.length
  · rw [if_pos hl]; exact Item.addBoxesGo_len_mono l it
  · rw [if_neg hl]

/-- When the `addBoxes` loop returns without throwing it has added one
box per descriptor. -/
theorem Item.addBoxesGo_none_len (l : List JSVal) :
    ∀ it : Item, (Item.addBoxesGo it l).2 = none →
      (Item.addBoxesGo it l).1.boxes.length = it.boxes.length + l.length := by
  induction l with
  | nil => intro it _; rfl
  | cons el rest ih =>
    intro it hnone
    cases hm : Box.make (el.index 0) (el.index 1) it.oid it.nextBoxId with
    | ok b =>
      simp only [Item.addBoxesGo, hm] at hnone ⊢
      have := ih { it with boxes := it.boxes ++ [b], nextBoxId := it.nextBoxId + 1 } hnone
      rw [this]
      simp
      omega
    | error m => simp [Item.addBoxesGo, hm] at hnone

/-- A successful `addBoxes` call had a non-empty descriptor list and
added one box per descriptor. -/
theorem Item.addBoxes_success (it : Item) (l : List JSVal) (h : (it.addBoxes l).2 = none) :
    0 < l.length ∧ (it.addBoxes l).1.boxes.length = it.boxes.length + l.length := by
  rw [Item.addBoxes] at h ⊢
  by_cases hl : 0 < l.length
  · rw [if_pos hl] at h ⊢
    exact ⟨hl, Item.addBoxesGo_none_len l it h⟩
  · rw [if_neg hl] at h
    exact absurd h (by simp)

/-- `removeBox` never leaves an item that had a box with none: the
invariant guard refuses the removal that would empty the set, and a
permitted removal starts from at least two boxes. -/
theorem Item.removeBox_min (it : Item) (b : Box) (h : 1 ≤ it.boxes.length) :
    1 ≤ (it.removeBox b).1.boxes.length := by
  rw [Item.removeBox]
  by_cases hm : b ∈ it.boxes
  · rw [if_pos hm]
    by_cases h2 : it.boxes.length < 2
    · rw [if_pos h2]; exact h
    · rw [if_neg h2]
      have := List.length_erase_of_mem hm
      simp only [this]
      omega
  · rw [if_neg hm]; exact h

/-- The Item setters do not touch the box set. -/
theorem Item.setCollection_boxes (it : Item) (e : JSVal) :
    (it.setCollection e).1.boxes = it.boxes := by
  rw [Item.setCollection]
  by_cases h : isNonEmptyString e = true
  · rw [if_pos h]
  · rw [if_neg h]

/-- The Item setters do not touch the box set. -/
theorem Item.setItemName_boxes (it : Item) (e : JSVal) :
    (it.setItemName e).1.boxes = it.boxes := by
  rw [Item.setItemName]
  by_cases h : isPositiveInt e = true <;> [skip; skip] <;>
    by_cases h2 : isNonEmptyString e = true
  all_goals first | rw [if_pos h2] | rw [if_neg h2]

/-- The Item setters do not touch the box set. -/
theorem Item.setItemId_boxes (it : Item) (e : JSVal) :
    (it.setItemId e).1.boxes = it.boxes := by
  rw [Item.setItemId]
  by_cases h : isPositiveInt e = true
  · rw [if_pos h]
  · rw [if_neg h]

/-- A successfully constructed Item holds at least one box: the
constructor runs `addBoxes` on the initially empty set and fails unless
that call succeeds, which requires a non-empty descriptor list. -/
theorem Item.make_min (oid : Nat) (collection item_name item_id : JSVal) (boxArgs : List JSVal)
    (it : Item) (h : Item.make oid collection item_name item_id boxArgs = Except.ok it) :
    1 ≤ it.boxes.length := by
  rw [Item.make] at h
  split at h
  · exact Except.noConfusion h
  rename_i it1 heq1
  split at h
  · exact Except.noConfusion h
  rename_i it2 heq2
  split at h
  · exact Except.noConfusion h
  rename_i it3 heq3
  split at h
  case _ it4 heq4 =>
    have hempty : it3.boxes = [] := by
      have e1 : it1.boxes = [] := by
        have := Item.setCollection_boxes
          { oid := oid, collection := "", item_name := "", item_id := 0,
            boxes := [], nextBoxId := 0 } collection
        rw [heq1] at this
        exact this
      have e2 : it2.boxes = it1.boxes := by
        have := Item.setItemName_boxes it1 item_name
        rw [heq2] at this
        exact this
      have e3 : it3.boxes = it2.boxes := by
        have := Item.setItemId_boxes it2 item_id
        rw [heq3] at this
        exact this
      rw [e3, e2, e1]
    have hs := Item.addBoxes_success it3 boxArgs (by rw [heq4])
    have hit : it = it4 := by
      injection h with h5
      exact h5.symm
    rw [hit]
    have hlen : (it3.addBoxes boxArgs).1.boxes.length =
        it3.boxes.length + boxArgs.length := hs.2
    rw [heq4, hempty] at hlen
    simp at hlen
    omega
  · exact Except.noConfusion h

/-- The Items reachable through the public surface of the model: built
by the Item constructor (standalone, or by `Container.addItems` from a
raw descriptor, which calls exactly `Item.make`), then mutated by any
interleaving of `addBoxes`, `removeBox` and `Box.remove` calls with
arbitrary arguments. -/
inductive ReachableItem : Item → Prop where
  | make (oid : Nat) (collection item_name item_id : JSVal) (boxArgs : List JSVal) (it : Item) :
      Item.make oid collection item_name item_id boxArgs = Except.ok it → ReachableItem it
  | addBoxes (it : Item) (l : List JSVal) : ReachableItem it → ReachableItem (it.addBoxes l).1
  | removeBox (it : Item) (b : Box) : ReachableItem it → ReachableItem (it.removeBox b).1
  | selfRemove (it : Item) (b : Box) : ReachableItem it → ReachableItem (Box.remove b it).1

/-- C1: every reachable Item always holds at least one box — no
constructor outcome or sequence of `addBoxes` / `removeBox` /
`Box.remove` calls leaves an Item with an empty box set. -/
theorem reachable_item_has_box (it : Item) (h : ReachableItem it) : 1 ≤ it.boxes.length := by
  induction h with
  | make oid collection item_name item_id boxArgs it hm =>
    exact Item.make_min oid collection item_name item_id boxArgs it hm
  | addBoxes it l _ ih => exact Nat.le_trans ih (Item.addBoxes_len_mono it l)
  | removeBox it b _ ih => exact Item.removeBox_min it b ih
  | selfRemove it b _ ih => exact Item.removeBox_min it b ih

/-- C1 witness: the exemplar one-box item is reachable (it is exactly
what the constructor returns on its descriptor) and the theorem yields
its box-set lower bound. -/
theorem reachable_item_has_box_witness : 1 ≤ exItemOne.boxes.length :=
  reachable_item_has_box exItemOne
    (ReachableItem.make 0 (JSVal.vstr "col") (JSVal.vstr "name") (JSVal.vint 1)
      [JSVal.varr [JSVal.vint 5, JSVal.vstr "small"]] exItemOne (by decide))

end PackingList
